import Mathlib

/-!
# digo: the resource-access layer of `account.go`

A shallow embedding of `account.go`: the authenticated fetch (`getJSON`), the
generic load (`loadResource`), the typed listings, the mutating operations and
the three lazily populated id-to-name caches.

Conventions of the embedding.

* A Go `string` and a Go `[]byte` are a Lean `String`.
* A Go `error` is an `Option String`: `none` is `nil`, `some t` is an error
  whose `Error()` text is `t`.
* A Go `int` is an `Int`; the code does no arithmetic on ids.
* A Go pointer that may be `nil` is an `Option`; a slice is a `List`
  (the `nil` slice is `[]`).
* The network is an oracle `Env.httpGet`: it answers a request from the list
  of URLs requested so far and the URL requested now.  The list of requested
  URLs is threaded through every operation as explicit state, so that the
  number of fetches an operation issues can be read off it.
* `json.Unmarshal` is a parameter of the environment, one function per target
  shape: it receives the body and the target and returns the target as it
  leaves it together with the error.
* A nil-pointer dereference is a panic; an operation that can panic returns an
  `Option`, `none` being the panic.
* Calls to `logger` only emit diagnostics and are left out.
-/

namespace Digo

/-! ## Strings -/

/-- Go `strings.Contains(s, substr)`. -/
def stringsContains (s substr : String) : Bool :=
  decide (substr.data <:+: s.data)

/-- Go `strings.HasPrefix(s, p)`. -/
def stringsHasPrefix (s p : String) : Bool :=
  decide (p.data <+: s.data)

/-- The digits of `lowerhex` in `strconv`. -/
def lowerhex (n : Nat) : Char :=
  Nat.digitChar (n % 16)

/-- The `k` low hexadecimal digits of `n`, most significant first. -/
def hexDigits : Nat → Nat → List Char
  | 0, _ => []
  | k + 1, n => hexDigits k (n / 16) ++ [lowerhex n]

/-- Go `strconv.IsPrint`: decided by the code for ASCII runes, and by the
Unicode tables of the library, taken as the parameter `tbl`, above them. -/
def IsPrint (tbl : Char → Bool) (r : Char) : Bool :=
  if r.toNat < 128 then decide (32 ≤ r.toNat ∧ r.toNat < 127) else tbl r

/-- Go `strconv.appendEscapedRune` with the double quote as the quote and
neither `ASCIIonly` nor `graphicOnly`: what `strconv.Quote` writes for one
rune. -/
def appendEscapedRune (tbl : Char → Bool) (r : Char) : List Char :=
  if r.toNat = 34 ∨ r.toNat = 92 then [Char.ofNat 92, r]
  else if IsPrint tbl r then [r]
  else if r.toNat = 7 then [Char.ofNat 92, 'a']
  else if r.toNat = 8 then [Char.ofNat 92, 'b']
  else if r.toNat = 12 then [Char.ofNat 92, 'f']
  else if r.toNat = 10 then [Char.ofNat 92, 'n']
  else if r.toNat = 13 then [Char.ofNat 92, 'r']
  else if r.toNat = 9 then [Char.ofNat 92, 't']
  else if r.toNat = 11 then [Char.ofNat 92, 'v']
  else if r.toNat < 32 ∨ r.toNat = 127 then Char.ofNat 92 :: 'x' :: hexDigits 2 r.toNat
  else if r.toNat < 65536 then Char.ofNat 92 :: 'u' :: hexDigits 4 r.toNat
  else Char.ofNat 92 :: 'U' :: hexDigits 8 r.toNat

/-- Go `strconv.Quote`, which the verb `%q` of `fmt` applies to a string. -/
def strconvQuote (tbl : Char → Bool) (s : String) : String :=
  ⟨Char.ofNat 34 :: (s.data.flatMap (appendEscapedRune tbl)) ++ [Char.ofNat 34]⟩

/-- The verb `%d` of `fmt` on an `int`. -/
def fmtInt (n : Int) : String :=
  toString n

/-! ## Data model -/

/-- A Go `error` value, by its text. -/
abbrev GoError := Option String

/-- A Go `map[int]string` that is not nil: its entries, keys unique. -/
abbrev Table := List (Int × String)

/-- Go `m[k] = v` on a map that is not nil. -/
def Table.assign (t : Table) (k : Int) (v : String) : Table :=
  (k, v) :: t.filter (fun p => p.1 != k)

/-- A Go `map[int]string` value; `none` is the nil map. -/
abbrev GoMap := Option Table

/-- Go `m[k]` as an expression: the zero value `""` for an absent key and on
the nil map. -/
def GoMap.index (m : GoMap) (k : Int) : String :=
  match m with
  | none => ""
  | some t =>
    match t.lookup k with
    | some v => v
    | none => ""

/-- The address of an `Account`: what a `*Account` holds. -/
abbrev AccountPtr := Nat

/-- The struct `Account`. -/
structure Account where
  Name : String
  ApiKey : String
  SshKey : Int
  ClientId : String
  RegionId : Int
  SizeId : Int
  ImageId : Int
  cachedSizes : GoMap
  cachedImages : GoMap
  cachedRegions : GoMap
  deriving DecidableEq, Repr

/-- Go `NewAccount`. -/
def NewAccount (clientId apiKey : String) : Account :=
  { Name := "", ApiKey := apiKey, SshKey := 0, ClientId := clientId,
    RegionId := 0, SizeId := 0, ImageId := 0,
    cachedSizes := none, cachedImages := none, cachedRegions := none }

/-- The struct `ErrorResponse`. -/
structure ErrorResponse where
  Status : String
  Error : String
  deriving DecidableEq, Repr

/-- Modelled from the spec: the declaration of `SshKey` is not in the sources
at hand; the spec gives a resource record an integer id and a name. -/
structure SshKey where
  Id : Int
  Name : String
  deriving DecidableEq, Repr

/-- Modelled from the spec: the declaration of `Size` is not in the sources at
hand; `CachedSizes` reads its fields `Id` and `Name`. -/
structure Size where
  Id : Int
  Name : String
  deriving DecidableEq, Repr

/-- Modelled from the spec: the declaration of `Image` is not in the sources
at hand; `CachedImages` reads its fields `Id` and `Name`. -/
structure Image where
  Id : Int
  Name : String
  deriving DecidableEq, Repr

/-- Modelled from the spec: the declaration of `Region` is not in the sources
at hand; `CachedRegions` reads its fields `Id` and `Name`. -/
structure Region where
  Id : Int
  Name : String
  deriving DecidableEq, Repr

/-- Modelled from the spec: the declaration of `Droplet` is not in the sources
at hand; the spec gives it an id, a name, the region, size and image ids and
the back-reference to the account, and `DefaultDroplet` and `Droplets` write
`RegionId`, `SizeId`, `ImageId` and `Account`. -/
structure Droplet where
  Id : Int
  Name : String
  RegionId : Int
  SizeId : Int
  ImageId : Int
  Account : Option AccountPtr
  deriving DecidableEq, Repr

/-- The struct `SshKeysResponse`. -/
structure SshKeysResponse where
  Status : String
  Keys : List (Option SshKey)
  deriving DecidableEq, Repr

/-- Modelled from the spec: the declaration of `SizeResponse` is not in the
sources at hand; an envelope carries a status and, as `Sizes` reads it, the
collection `Sizes`. -/
structure SizeResponse where
  Status : String
  Sizes : List (Option Size)
  deriving DecidableEq, Repr

/-- Modelled from the spec: the envelope of the image listing, which is not in
the sources at hand, shaped as `SizeResponse`. -/
structure ImagesResponse where
  Status : String
  Images : List (Option Image)
  deriving DecidableEq, Repr

/-- Modelled from the spec: the envelope of the region listing, which is not
in the sources at hand, shaped as `SizeResponse`. -/
structure RegionsResponse where
  Status : String
  Regions : List (Option Region)
  deriving DecidableEq, Repr

/-- Modelled from the spec: the declaration of `DropletsResponse` is not in
the sources at hand; `Droplets` reads its collection `Droplets`. -/
structure DropletsResponse where
  Status : String
  Droplets : List (Option Droplet)
  deriving DecidableEq, Repr

/-- Modelled from the spec: the declaration of `EventResponse` is not in the
sources at hand; `RebuildDroplet` and `DestroyDroplet` read its fields
`Status` and `ErrorMessage`. -/
structure EventResponse where
  Status : String
  ErrorMessage : String
  deriving DecidableEq, Repr

/-! ## The environment -/

/-- What `http.Get` hands back when it returns no error: the status line and
what `ioutil.ReadAll` yields on the body, the bytes read and its error. -/
structure Response where
  Status : String
  Body : String
  ReadErr : GoError
  deriving DecidableEq, Repr

/-- Everything `account.go` takes from outside its own code. -/
structure Env where
  /-- The constant `API_ROOT`, whose declaration is not in the sources at
  hand. -/
  API_ROOT : String
  /-- Modelled from the spec: the path of the image listing; `Images` is not
  in the sources at hand. -/
  imagesPath : String
  /-- Modelled from the spec: the path of the region listing; `Regions` is not
  in the sources at hand. -/
  regionsPath : String
  /-- Go `http.Get`, answering from the URLs requested so far and the URL. -/
  httpGet : List String → String → Except String Response
  /-- The Unicode tables of `strconv.IsPrint`. -/
  isPrintTable : Char → Bool
  /-- Go `json.Unmarshal` into an `*ErrorResponse`. -/
  unmarshalError : String → ErrorResponse → ErrorResponse × GoError
  /-- Go `json.Unmarshal` into an `*SshKeysResponse`. -/
  unmarshalSshKeys : String → SshKeysResponse → SshKeysResponse × GoError
  /-- Go `json.Unmarshal` into an `*SizeResponse`. -/
  unmarshalSizes : String → SizeResponse → SizeResponse × GoError
  /-- Go `json.Unmarshal` into the envelope of the image listing. -/
  unmarshalImages : String → ImagesResponse → ImagesResponse × GoError
  /-- Go `json.Unmarshal` into the envelope of the region listing. -/
  unmarshalRegions : String → RegionsResponse → RegionsResponse × GoError
  /-- Go `json.Unmarshal` into an `*DropletsResponse`. -/
  unmarshalDroplets : String → DropletsResponse → DropletsResponse × GoError
  /-- Go `json.Unmarshal` into an `*EventResponse`. -/
  unmarshalEvent : String → EventResponse → EventResponse × GoError

/-! ## Transport -/

/-- The URL `getJSON` builds, lines 164 to 170. -/
def getJSON.url (env : Env) (account : Account) (path : String) : String :=
  let url := env.API_ROOT ++ path
  let url := if !stringsContains url "?" then url ++ "?" else url ++ "&"
  url ++ ("client_id=" ++ account.ClientId ++ "&api_key=" ++ account.ApiKey)

/-- Go `Account.getJSON`: the body, the error and the URLs requested so far. -/
def getJSON (env : Env) (account : Account) (path : String) (log : List String) :
    String × GoError × List String :=
  let url := getJSON.url env account path
  match env.httpGet log url with
  | .error e => ("", some e, log ++ [url])
  | .ok rsp =>
    if !stringsHasPrefix rsp.Status "2" then
      let b := rsp.Body
      match env.unmarshalError b { Status := "", Error := "" } with
      | (errorRsp, none) =>
        (b, some ("got status " ++ rsp.Status ++ " and error " ++
          strconvQuote env.isPrintTable errorRsp.Error ++ " when fetching " ++ url),
          log ++ [url])
      | (_, some _) =>
        (b, some ("got status " ++ rsp.Status ++ " when fetching " ++ url), log ++ [url])
    else
      (rsp.Body, rsp.ReadErr, log ++ [url])

/-- Go `Account.loadResource`: the target `i` as the call leaves it, the error
and the URLs requested so far. -/
def loadResource {α : Type} (env : Env) (account : Account) (path : String)
    (unmarshal : String → α → α × GoError) (i : α) (log : List String) :
    α × GoError × List String :=
  match getJSON env account path log with
  | (_, some e, log1) => (i, some e, log1)
  | (body, none, log1) =>
    match unmarshal body i with
    | (i1, e) => (i1, e, log1)

/-! ## Typed listings -/

/-- Go `Account.SshKeys`. -/
def SshKeys (env : Env) (account : Account) (log : List String) :
    List (Option SshKey) × GoError × List String :=
  match loadResource env account "/ssh_keys" env.unmarshalSshKeys { Status := "", Keys := [] } log with
  | (_, some e, log1) => ([], some e, log1)
  | (rsp, none, log1) => (rsp.Keys, none, log1)

/-- Go `Account.Sizes`. -/
def Sizes (env : Env) (account : Account) (log : List String) :
    List (Option Size) × GoError × List String :=
  match loadResource env account "/sizes" env.unmarshalSizes { Status := "", Sizes := [] } log with
  | (_, some e, log1) => ([], some e, log1)
  | (rsp, none, log1) => (rsp.Sizes, none, log1)

/-- Modelled from the spec: `Account.Images`, which is not in the sources at
hand; a thin specialization of the generic load against a fixed path and
envelope shape, returning the record collection or propagating the load
error, as its sibling `Sizes`. -/
def Images (env : Env) (account : Account) (log : List String) :
    List (Option Image) × GoError × List String :=
  match loadResource env account env.imagesPath env.unmarshalImages { Status := "", Images := [] } log with
  | (_, some e, log1) => ([], some e, log1)
  | (rsp, none, log1) => (rsp.Images, none, log1)

/-- Modelled from the spec: `Account.Regions`, which is not in the sources at
hand; a thin specialization of the generic load against a fixed path and
envelope shape, returning the record collection or propagating the load
error, as its sibling `Sizes`. -/
def Regions (env : Env) (account : Account) (log : List String) :
    List (Option Region) × GoError × List String :=
  match loadResource env account env.regionsPath env.unmarshalRegions { Status := "", Regions := [] } log with
  | (_, some e, log1) => ([], some e, log1)
  | (rsp, none, log1) => (rsp.Regions, none, log1)

/-- The loop of `Droplets`, lines 212 to 214: `droplets[i].Account = self` on
every element; `none` is the panic on a nil element. -/
def Droplets.backfill (self : AccountPtr) : List (Option Droplet) → Option (List (Option Droplet))
  | [] => some []
  | none :: _ => none
  | some d :: rest =>
    match Droplets.backfill self rest with
    | none => none
    | some rest1 => some (some { d with Account := some self } :: rest1)

/-- Go `Account.Droplets`, called on the account at address `self`. -/
def Droplets (env : Env) (self : AccountPtr) (account : Account) (log : List String) :
    Option (List (Option Droplet) × GoError × List String) :=
  match loadResource env account "/droplets" env.unmarshalDroplets { Status := "", Droplets := [] } log with
  | (_, some e, log1) => some ([], some e, log1)
  | (dropletResponse, none, log1) =>
    match Droplets.backfill self dropletResponse.Droplets with
    | none => none
    | some droplets => some (droplets, none, log1)

/-! ## Mutating operations -/

/-- Go `Account.RebuildDroplet`. -/
def RebuildDroplet (env : Env) (a : Account) (id : Int) (imageId : Int) (log : List String) :
    Option EventResponse × GoError × List String :=
  let path := "/droplets/" ++ fmtInt id ++ "/rebuild?image_id=" ++ fmtInt imageId
  match loadResource env a path env.unmarshalEvent { Status := "", ErrorMessage := "" } log with
  | (_, some e, log1) => (none, some e, log1)
  | (rsp, none, log1) =>
    if rsp.Status ≠ "OK" then (some rsp, some "error rebuilding droplet", log1)
    else (some rsp, none, log1)

/-- Go `Account.DestroyDroplet`. -/
def DestroyDroplet (env : Env) (account : Account) (id : Int) (log : List String) :
    Option EventResponse × GoError × List String :=
  match loadResource env account ("/droplets/" ++ fmtInt id ++ "/destroy") env.unmarshalEvent
      { Status := "", ErrorMessage := "" } log with
  | (_, some e, log1) => (none, some e, log1)
  | (rsp, none, log1) =>
    if rsp.Status ≠ "OK" then
      (some rsp, some ("error destroying droplet: " ++ rsp.ErrorMessage), log1)
    else (some rsp, none, log1)

/-- Go `Account.DefaultDroplet`. -/
def DefaultDroplet (account : Account) : Droplet :=
  let droplet : Droplet :=
    { Id := 0, Name := "", RegionId := 0, SizeId := 0, ImageId := 0, Account := none }
  let droplet := if account.RegionId > 0 then { droplet with RegionId := account.RegionId } else droplet
  let droplet := if account.SizeId > 0 then { droplet with SizeId := account.SizeId } else droplet
  let droplet := if account.ImageId > 0 then { droplet with ImageId := account.ImageId } else droplet
  droplet

/-! ## Lazy caches and name resolution -/

/-- The loop `for _, x := range xs { cache[x.Id] = x.Name }` of the cache
accessors, on the table `t` of the cache; `none` is the panic on a nil
element. -/
def rangeAssign {α : Type} (Id : α → Int) (Name : α → String) (t : Table) :
    List (Option α) → Option Table
  | [] => some t
  | none :: _ => none
  | some x :: rest => rangeAssign Id Name (t.assign (Id x) (Name x)) rest

/-- Go `Account.CachedImages`: the returned map, the error, the account as the
call leaves it and the URLs requested so far. -/
def CachedImages (env : Env) (account : Account) (log : List String) :
    Option (GoMap × GoError × Account × List String) :=
  match account.cachedImages with
  | none =>
    let account1 := { account with cachedImages := some [] }
    match Images env account1 log with
    | (_, some e, log1) => some (none, some e, account1, log1)
    | (images, none, log1) =>
      match rangeAssign Image.Id Image.Name [] images with
      | none => none
      | some t => some (some t, none, { account1 with cachedImages := some t }, log1)
  | some t => some (some t, none, account, log)

/-- Go `Account.ImageName`. -/
def ImageName (env : Env) (account : Account) (i : Int) (log : List String) :
    Option (String × Account × List String) :=
  match CachedImages env account log with
  | none => none
  | some (_, some _, account1, log1) => some ("", account1, log1)
  | some (images, none, account1, log1) => some (images.index i, account1, log1)

/-- Go `Account.CachedRegions`. -/
def CachedRegions (env : Env) (account : Account) (log : List String) :
    Option (GoMap × GoError × Account × List String) :=
  match account.cachedRegions with
  | none =>
    let account1 := { account with cachedRegions := some [] }
    match Regions env account1 log with
    | (_, some e, log1) => some (none, some e, account1, log1)
    | (regions, none, log1) =>
      match rangeAssign Region.Id Region.Name [] regions with
      | none => none
      | some t => some (some t, none, { account1 with cachedRegions := some t }, log1)
  | some t => some (some t, none, account, log)

/-- Go `Account.RegionName`. -/
def RegionName (env : Env) (account : Account) (i : Int) (log : List String) :
    Option (String × Account × List String) :=
  match CachedRegions env account log with
  | none => none
  | some (_, some _, account1, log1) => some ("", account1, log1)
  | some (regions, none, account1, log1) => some (regions.index i, account1, log1)

/-- Go `Account.CachedSizes`. -/
def CachedSizes (env : Env) (account : Account) (log : List String) :
    Option (GoMap × GoError × Account × List String) :=
  match account.cachedSizes with
  | none =>
    let account1 := { account with cachedSizes := some [] }
    match Sizes env account1 log with
    | (_, some e, log1) => some (none, some e, account1, log1)
    | (sizes, none, log1) =>
      match rangeAssign Size.Id Size.Name [] sizes with
      | none => none
      | some t => some (some t, none, { account1 with cachedSizes := some t }, log1)
  | some t => some (some t, none, account, log)

/-- Go `Account.SizeName`. -/
def SizeName (env : Env) (account : Account) (i : Int) (log : List String) :
    Option (String × Account × List String) :=
  match CachedSizes env account log with
  | none => none
  | some (_, some _, account1, log1) => some ("", account1, log1)
  | some (sizes, none, account1, log1) => some (sizes.index i, account1, log1)

/-! ## The three caches, uniformly

The three resource kinds that have a cache, and the operations of each, so
that a property of all three is one statement. -/

/-- The resource kinds with a cache. -/
inductive Kind where
  | image
  | region
  | size
  deriving DecidableEq, Repr

/-- The cache field of the kind. -/
def Kind.cache : Kind → Account → GoMap
  | .image, a => a.cachedImages
  | .region, a => a.cachedRegions
  | .size, a => a.cachedSizes

/-- The account with the cache field of the kind set to `m`. -/
def Kind.withCache : Kind → Account → GoMap → Account
  | .image, a, m => { a with cachedImages := m }
  | .region, a, m => { a with cachedRegions := m }
  | .size, a, m => { a with cachedSizes := m }

/-- The path of the collection of the kind. -/
def Kind.path (env : Env) : Kind → String
  | .image => env.imagesPath
  | .region => env.regionsPath
  | .size => "/sizes"

/-- An id and a name: the two fields of a record the caches read. -/
structure Entry where
  Id : Int
  Name : String
  deriving DecidableEq, Repr

/-- The collection fetch of the kind (`Images`, `Regions`, `Sizes`), each
record given by its id and its name. -/
def Kind.fetch (env : Env) (account : Account) (log : List String) :
    Kind → List (Option Entry) × GoError × List String
  | .image =>
    match Images env account log with
    | (xs, e, log1) => (xs.map (Option.map (fun x => ⟨x.Id, x.Name⟩)), e, log1)
  | .region =>
    match Regions env account log with
    | (xs, e, log1) => (xs.map (Option.map (fun x => ⟨x.Id, x.Name⟩)), e, log1)
  | .size =>
    match Sizes env account log with
    | (xs, e, log1) => (xs.map (Option.map (fun x => ⟨x.Id, x.Name⟩)), e, log1)

/-- The cache accessor of the kind. -/
def Kind.cached (env : Env) (account : Account) (log : List String) :
    Kind → Option (GoMap × GoError × Account × List String)
  | .image => CachedImages env account log
  | .region => CachedRegions env account log
  | .size => CachedSizes env account log

/-- The name resolution of the kind. -/
def Kind.name (env : Env) (account : Account) (i : Int) (log : List String) :
    Kind → Option (String × Account × List String)
  | .image => ImageName env account i log
  | .region => RegionName env account i log
  | .size => SizeName env account i log

/-- The table the loop of a cache accessor leaves when it runs over the
records `l` from the empty table. -/
def tableOf (l : List Entry) : Table :=
  l.foldl (fun (t : Table) e => t.assign e.Id e.Name) []

/-- The name of the last record of `l` whose id is `k`. -/
def lastName (l : List Entry) (k : Int) : Option String :=
  (l.reverse.find? (fun x => x.Id == k)).map Entry.Name

/-! ## Concrete environments -/

/-- An environment in which every request fails at the transport and no body
decodes. -/
def Env.offline : Env where
  API_ROOT := "https://api.digitalocean.com"
  imagesPath := "/images"
  regionsPath := "/regions"
  httpGet := fun _ _ => .error "dial tcp: connection refused"
  isPrintTable := fun _ => false
  unmarshalError := fun _ i => (i, some "unexpected end of JSON input")
  unmarshalSshKeys := fun _ i => (i, some "unexpected end of JSON input")
  unmarshalSizes := fun _ i => (i, some "unexpected end of JSON input")
  unmarshalImages := fun _ i => (i, some "unexpected end of JSON input")
  unmarshalRegions := fun _ i => (i, some "unexpected end of JSON input")
  unmarshalDroplets := fun _ i => (i, some "unexpected end of JSON input")
  unmarshalEvent := fun _ i => (i, some "unexpected end of JSON input")

/-- An environment in which every request is answered `200 OK` with the body
`body`, which decodes as the event response `rsp`. -/
def Env.event (body : String) (rsp : EventResponse) : Env :=
  { Env.offline with
    httpGet := fun _ _ => .ok { Status := "200 OK", Body := body, ReadErr := none }
    unmarshalEvent := fun b i => if b = body then (rsp, none) else (i, some "invalid character") }

/-- The account of the examples. -/
def demoAccount : Account :=
  NewAccount "cid" "key"

/-- An environment in which every request is answered `200 OK` with the body
`body`, which decodes as the droplets envelope `rsp`. -/
def Env.droplets (body : String) (rsp : DropletsResponse) : Env :=
  { Env.offline with
    httpGet := fun _ _ => .ok { Status := "200 OK", Body := body, ReadErr := none }
    unmarshalDroplets := fun b i =>
      if b = body then (rsp, none) else (i, some "invalid character") }

/-- Two droplets as decoded, their back-reference still nil. -/
def demoDroplets : List Droplet :=
  [ { Id := 11, Name := "web", RegionId := 1, SizeId := 66, ImageId := 2676, Account := none },
    { Id := 12, Name := "db", RegionId := 2, SizeId := 63, ImageId := 2676, Account := none } ]

/-- The body of a droplets listing holding `demoDroplets`. -/
def demoDropletsBody : String :=
  "\x7b\"status\":\"OK\",\"droplets\":[" ++
    "\x7b\"id\":11,\"name\":\"web\",\"region_id\":1,\"size_id\":66,\"image_id\":2676\x7d," ++
    "\x7b\"id\":12,\"name\":\"db\",\"region_id\":2,\"size_id\":63,\"image_id\":2676\x7d]\x7d"

/-- The body of a droplets listing whose second entry is the JSON `null`. -/
def nullDropletsBody : String :=
  "\x7b\"status\":\"OK\",\"droplets\":[" ++
    "\x7b\"id\":11,\"name\":\"web\",\"region_id\":1,\"size_id\":66,\"image_id\":2676\x7d," ++
    "null]\x7d"

/-- The envelope `nullDropletsBody` decodes as: one droplet and one nil
pointer. -/
def nullDroplets : DropletsResponse :=
  { Status := "OK",
    Droplets :=
      [some { Id := 11, Name := "web", RegionId := 1, SizeId := 66, ImageId := 2676,
              Account := none },
       none] }

/-- The offline environment with the API root `root`. -/
def Env.rooted (root : String) : Env :=
  { Env.offline with API_ROOT := root }

/-- An environment in which every request is answered with the status line
`status` and the body `body`, which decodes as the error envelope `rsp`. -/
def Env.refusing (status body : String) (rsp : ErrorResponse) : Env :=
  { Env.offline with
    httpGet := fun _ _ => .ok { Status := status, Body := body, ReadErr := none }
    unmarshalError := fun b i =>
      if b = body then (rsp, none) else (i, some "invalid character") }

/-- An environment in which every request is answered `200 OK` with the body
`body`, which decodes as the SSH keys envelope `rsp`. -/
def Env.sshKeys (body : String) (rsp : SshKeysResponse) : Env :=
  { Env.offline with
    httpGet := fun _ _ => .ok { Status := "200 OK", Body := body, ReadErr := none }
    unmarshalSshKeys := fun b i =>
      if b = body then (rsp, none) else (i, some "invalid character") }

/-- An environment in which every request is answered `200 OK` with the body
`body`, which decodes as the sizes envelope `rsp`. -/
def Env.sizes (body : String) (rsp : SizeResponse) : Env :=
  { Env.offline with
    httpGet := fun _ _ => .ok { Status := "200 OK", Body := body, ReadErr := none }
    unmarshalSizes := fun b i =>
      if b = body then (rsp, none) else (i, some "invalid character") }

/-- A sizes envelope in which the id 66 occurs twice. -/
def demoSizes : SizeResponse :=
  { Status := "OK",
    Sizes := [some { Id := 66, Name := "512MB" }, some { Id := 63, Name := "1GB" },
      some { Id := 66, Name := "0.5GB" }] }

/-- The body of `demoSizes`. -/
def demoSizesBody : String :=
  "\x7b\"status\":\"OK\",\"sizes\":[\x7b\"id\":66,\"name\":\"512MB\"\x7d," ++
    "\x7b\"id\":63,\"name\":\"1GB\"\x7d,\x7b\"id\":66,\"name\":\"0.5GB\"\x7d]\x7d"

/-! ## Strings: facts -/

theorem stringsContains_iff (s t : String) :
    stringsContains s t = true ↔ t.data <:+: s.data := by
  simp [stringsContains]

theorem stringsContains_append_left (s t u : String) (h : stringsContains s u = true) :
    stringsContains (s ++ t) u = true := by
  rw [stringsContains_iff] at h ⊢
  rw [String.data_append]
  exact List.IsInfix.trans h (List.infix_append' [] s.data t.data)

theorem stringsContains_append_right (s t u : String) (h : stringsContains t u = true) :
    stringsContains (s ++ t) u = true := by
  rw [stringsContains_iff] at h ⊢
  rw [String.data_append]
  exact List.IsInfix.trans h (List.suffix_append s.data t.data).isInfix

theorem stringsContains_self (s : String) : stringsContains s s = true := by
  rw [stringsContains_iff]

theorem singleton_infix_iff_mem (c : Char) (l : List Char) : [c] <:+: l ↔ c ∈ l := by
  constructor
  · rintro ⟨s, t, rfl⟩
    simp
  · intro h
    obtain ⟨s, t, rfl⟩ := List.append_of_mem h
    exact ⟨s, t, by simp⟩

theorem stringsContains_question (s : String) :
    stringsContains s "?" = true ↔ '?' ∈ s.data := by
  rw [stringsContains_iff]
  exact singleton_infix_iff_mem '?' s.data

theorem stringsContains_question_append (s t : String) :
    stringsContains (s ++ t) "?" = (stringsContains s "?" || stringsContains t "?") := by
  rw [Bool.eq_iff_iff, Bool.or_eq_true, stringsContains_question, stringsContains_question,
    stringsContains_question, String.data_append, List.mem_append]

theorem digitChar_ne_question (n : Nat) : Nat.digitChar (n % 10) ≠ '?' := by
  have h : n % 10 < 10 := Nat.mod_lt _ (by decide)
  interval_cases (n % 10) <;> decide

theorem toDigitsCore_no_question (fuel : Nat) : ∀ (n : Nat) (ds : List Char),
    '?' ∉ ds → '?' ∉ Nat.toDigitsCore 10 fuel n ds := by
  induction fuel with
  | zero => intro n ds h; simpa [Nat.toDigitsCore] using h
  | succ f ih =>
    intro n ds h
    simp only [Nat.toDigitsCore]
    have hd : '?' ∉ Nat.digitChar (n % 10) :: ds := by
      simp only [List.mem_cons, not_or]
      exact ⟨fun e => digitChar_ne_question n e.symm, h⟩
    split
    · exact hd
    · exact ih _ _ hd

theorem natRepr_no_question (n : Nat) : '?' ∉ (Nat.repr n).data := by
  simp only [Nat.repr, List.asString]
  exact toDigitsCore_no_question _ _ _ (by simp)

theorem fmtInt_no_question (n : Int) : stringsContains (fmtInt n) "?" = false := by
  rw [← Bool.not_eq_true, stringsContains_question]
  unfold fmtInt
  cases n with
  | ofNat m => exact natRepr_no_question m
  | negSucc m =>
    show '?' ∉ ("-" ++ Nat.repr (Nat.succ m)).data
    rw [String.data_append]
    simp only [List.mem_append, not_or]
    exact ⟨by decide, natRepr_no_question _⟩

theorem appendEscapedRune_plain (tbl : Char → Bool) (c : Char)
    (h : IsPrint tbl c = true ∧ c.toNat ≠ 34 ∧ c.toNat ≠ 92) :
    appendEscapedRune tbl c = [c] := by
  simp [appendEscapedRune, h.1, h.2.1, h.2.2]

theorem flatMap_appendEscapedRune_plain (tbl : Char → Bool) (l : List Char)
    (h : ∀ c ∈ l, IsPrint tbl c = true ∧ c.toNat ≠ 34 ∧ c.toNat ≠ 92) :
    l.flatMap (appendEscapedRune tbl) = l := by
  induction l with
  | nil => rfl
  | cons c rest ih =>
    rw [List.flatMap_cons, appendEscapedRune_plain tbl c (h c (List.mem_cons_self c rest)),
      ih (fun d hd => h d (List.mem_cons_of_mem c hd))]
    rfl

theorem strconvQuote_contains_plain (tbl : Char → Bool) (m : String)
    (h : ∀ c ∈ m.data, IsPrint tbl c = true ∧ c.toNat ≠ 34 ∧ c.toNat ≠ 92) :
    stringsContains (strconvQuote tbl m) m = true := by
  rw [stringsContains_iff]
  simp only [strconvQuote, flatMap_appendEscapedRune_plain tbl m.data h]
  exact ⟨[Char.ofNat 34], [Char.ofNat 34], by simp⟩

/-! ## Transport and load: facts -/

theorem getJSON_log (env : Env) (account : Account) (path : String) (log : List String) :
    (getJSON env account path log).2.2 = log ++ [getJSON.url env account path] := by
  simp only [getJSON]
  split
  · rfl
  · split
    · split <;> rfl
    · rfl

theorem loadResource_log {α : Type} (env : Env) (account : Account) (path : String)
    (unmarshal : String → α → α × GoError) (i : α) (log : List String) :
    (loadResource env account path unmarshal i log).2.2 =
      log ++ [getJSON.url env account path] := by
  have h := getJSON_log env account path log
  unfold loadResource
  split
  · next h1 => rw [h1] at h; exact h
  · next h1 => rw [h1] at h; exact h

theorem getJSON_url_eq (env : Env) (account : Account) (path : String) :
    getJSON.url env account path =
      env.API_ROOT ++ path ++
        (if stringsContains (env.API_ROOT ++ path) "?" then "&" else "?") ++
        "client_id=" ++ account.ClientId ++ "&api_key=" ++ account.ApiKey := by
  simp only [getJSON.url]
  cases stringsContains (env.API_ROOT ++ path) "?" <;>
    (apply String.ext; simp [String.data_append])

theorem RebuildDroplet_log (env : Env) (a : Account) (id imageId : Int) (log : List String) :
    (RebuildDroplet env a id imageId log).2.2 =
      log ++ [getJSON.url env a
        ("/droplets/" ++ fmtInt id ++ "/rebuild?image_id=" ++ fmtInt imageId)] := by
  have h := loadResource_log env a
    ("/droplets/" ++ fmtInt id ++ "/rebuild?image_id=" ++ fmtInt imageId)
    env.unmarshalEvent { Status := "", ErrorMessage := "" } log
  simp only [RebuildDroplet]
  split
  · next h1 => rw [h1] at h; exact h
  · next h1 => rw [h1] at h; split <;> exact h

theorem DestroyDroplet_log (env : Env) (account : Account) (id : Int) (log : List String) :
    (DestroyDroplet env account id log).2.2 =
      log ++ [getJSON.url env account ("/droplets/" ++ fmtInt id ++ "/destroy")] := by
  have h := loadResource_log env account ("/droplets/" ++ fmtInt id ++ "/destroy")
    env.unmarshalEvent { Status := "", ErrorMessage := "" } log
  simp only [DestroyDroplet]
  split
  · next h1 => rw [h1] at h; exact h
  · next h1 => rw [h1] at h; split <;> exact h

/-! ## Transport: theorems -/

/-- C5, as stated, fails: with an API root that itself contains `?`, the
destroy path, which has no query string, is joined with `&` and not with
`?`. -/
theorem getJSON_url_counterexample :
    stringsContains "/droplets/7/destroy" "?" = false ∧
    (getJSON (Env.rooted "https://api.digitalocean.com/?v=1") demoAccount
        "/droplets/7/destroy" []).2.2 =
      ["https://api.digitalocean.com/?v=1" ++ "/droplets/7/destroy" ++ "&" ++
        "client_id=" ++ "cid" ++ "&api_key=" ++ "key"] ∧
    (getJSON (Env.rooted "https://api.digitalocean.com/?v=1") demoAccount
        "/droplets/7/destroy" []).2.2 ≠
      ["https://api.digitalocean.com/?v=1" ++ "/droplets/7/destroy" ++ "?" ++
        "client_id=" ++ "cid" ++ "&api_key=" ++ "key"] ∧
    (DestroyDroplet (Env.rooted "https://api.digitalocean.com/?v=1") demoAccount 7 []).2.2 =
      ["https://api.digitalocean.com/?v=1/droplets/7/destroy&client_id=cid&api_key=key"] := by
  decide

/-- C5, amended: `getJSON` requests exactly one URL, which is
`root ++ path ++ sep ++ "client_id=" ++ clientId ++ "&api_key=" ++ apiKey`
with `sep` being `?` when `root ++ path` contains no `?` and `&` otherwise;
so, for a root that contains no `?`, `sep` is `?` when the path contains no `?`
and `&` otherwise.  The rebuild path is joined with `&` for every root, and the
destroy path with `?` for every root that contains no `?`. -/
theorem getJSON_url_separator (env : Env) (account : Account) (path : String)
    (log : List String) :
    (getJSON env account path log).2.2 = log ++ [getJSON.url env account path] ∧
    getJSON.url env account path =
      env.API_ROOT ++ path ++
        (if stringsContains (env.API_ROOT ++ path) "?" then "&" else "?") ++
        "client_id=" ++ account.ClientId ++ "&api_key=" ++ account.ApiKey ∧
    (stringsContains env.API_ROOT "?" = false →
      getJSON.url env account path =
        env.API_ROOT ++ path ++ (if stringsContains path "?" then "&" else "?") ++
          "client_id=" ++ account.ClientId ++ "&api_key=" ++ account.ApiKey) ∧
    (∀ id imageId : Int,
      (RebuildDroplet env account id imageId log).2.2 =
        log ++ [env.API_ROOT ++
          ("/droplets/" ++ fmtInt id ++ "/rebuild?image_id=" ++ fmtInt imageId) ++ "&" ++
          "client_id=" ++ account.ClientId ++ "&api_key=" ++ account.ApiKey]) ∧
    (stringsContains env.API_ROOT "?" = false →
      ∀ id : Int,
        (DestroyDroplet env account id log).2.2 =
          log ++ [env.API_ROOT ++ ("/droplets/" ++ fmtInt id ++ "/destroy") ++ "?" ++
            "client_id=" ++ account.ClientId ++ "&api_key=" ++ account.ApiKey]) := by
  refine ⟨getJSON_log env account path log, getJSON_url_eq env account path, ?_, ?_, ?_⟩
  · intro hroot
    rw [getJSON_url_eq, stringsContains_question_append, hroot, Bool.false_or]
  · intro id imageId
    rw [RebuildDroplet_log, getJSON_url_eq]
    have h : stringsContains
        (env.API_ROOT ++ ("/droplets/" ++ fmtInt id ++ "/rebuild?image_id=" ++ fmtInt imageId))
        "?" = true := by
      rw [stringsContains_question_append, stringsContains_question_append,
        stringsContains_question_append _ "/rebuild?image_id="]
      have h1 : stringsContains "/rebuild?image_id=" "?" = true := by decide
      simp [h1]
    rw [h]
    rfl
  · intro hroot id
    rw [DestroyDroplet_log, getJSON_url_eq]
    have h : stringsContains (env.API_ROOT ++ ("/droplets/" ++ fmtInt id ++ "/destroy"))
        "?" = false := by
      rw [stringsContains_question_append, stringsContains_question_append,
        stringsContains_question_append, hroot, fmtInt_no_question]
      decide
    rw [h]
    rfl

/-- C5, amended, at the root `https://api.digitalocean.com`, which contains no
`?`: the URL of the destroy request of droplet 7. -/
theorem getJSON_url_separator_witness :
    stringsContains Env.offline.API_ROOT "?" = false ∧
    (DestroyDroplet Env.offline demoAccount 7 []).2.2 =
      [] ++ [Env.offline.API_ROOT ++ ("/droplets/" ++ fmtInt 7 ++ "/destroy") ++ "?" ++
        "client_id=" ++ demoAccount.ClientId ++ "&api_key=" ++ demoAccount.ApiKey] :=
  ⟨by decide,
    (getJSON_url_separator Env.offline demoAccount "/droplets/7/destroy" []).2.2.2.2
      (by decide) 7⟩

set_option maxRecDepth 20000 in
/-- C6, as stated, fails: the decoded `error_message` goes into the text
through `%q`, which escapes it; the message `no "such" droplet` is not a
substring of the text of the error. -/
theorem getJSON_error_text_counterexample :
    stringsHasPrefix "404 Not Found" "2" = false ∧
    (Env.refusing "404 Not Found"
        "\x7b\"status\":\"ERROR\",\"error_message\":\"no \\\"such\\\" droplet\"\x7d"
        { Status := "ERROR", Error := "no \"such\" droplet" }).unmarshalError
        "\x7b\"status\":\"ERROR\",\"error_message\":\"no \\\"such\\\" droplet\"\x7d"
        { Status := "", Error := "" } =
      ({ Status := "ERROR", Error := "no \"such\" droplet" }, none) ∧
    getJSON
        (Env.refusing "404 Not Found"
          "\x7b\"status\":\"ERROR\",\"error_message\":\"no \\\"such\\\" droplet\"\x7d"
          { Status := "ERROR", Error := "no \"such\" droplet" })
        demoAccount "/droplets/7" [] =
      ("\x7b\"status\":\"ERROR\",\"error_message\":\"no \\\"such\\\" droplet\"\x7d",
        some ("got status 404 Not Found and error \"no \\\"such\\\" droplet\" when fetching " ++
          "https://api.digitalocean.com/droplets/7?client_id=cid&api_key=key"),
        ["https://api.digitalocean.com/droplets/7?client_id=cid&api_key=key"]) ∧
    stringsContains
        ("got status 404 Not Found and error \"no \\\"such\\\" droplet\" when fetching " ++
          "https://api.digitalocean.com/droplets/7?client_id=cid&api_key=key")
        "no \"such\" droplet" = false := by
  decide

/-- C6, amended: on a response whose status does not start with `2`, when the
body decodes as an error envelope with `error_message` `m`, `getJSON` fails
with an error whose text contains the HTTP status, `m` as `strconv.Quote`
writes it and the fetch URL, and contains `m` itself when every character of
`m` is printable and is neither the double quote nor the backslash; when the
body does not decode, the text contains the HTTP status and the fetch URL. -/
theorem getJSON_error_text (env : Env) (account : Account) (path : String)
    (log : List String) (rsp : Response)
    (hget : env.httpGet log (getJSON.url env account path) = .ok rsp)
    (hstatus : stringsHasPrefix rsp.Status "2" = false) :
    (∀ errorRsp, env.unmarshalError rsp.Body { Status := "", Error := "" } = (errorRsp, none) →
      ∃ text,
        getJSON env account path log =
          (rsp.Body, some text, log ++ [getJSON.url env account path]) ∧
        stringsContains text rsp.Status = true ∧
        stringsContains text (strconvQuote env.isPrintTable errorRsp.Error) = true ∧
        stringsContains text (getJSON.url env account path) = true ∧
        ((∀ c ∈ errorRsp.Error.data,
            IsPrint env.isPrintTable c = true ∧ c.toNat ≠ 34 ∧ c.toNat ≠ 92) →
          stringsContains text errorRsp.Error = true)) ∧
    (∀ errorRsp e,
      env.unmarshalError rsp.Body { Status := "", Error := "" } = (errorRsp, some e) →
      ∃ text,
        getJSON env account path log =
          (rsp.Body, some text, log ++ [getJSON.url env account path]) ∧
        stringsContains text rsp.Status = true ∧
        stringsContains text (getJSON.url env account path) = true) := by
  constructor
  · intro errorRsp hdec
    refine ⟨"got status " ++ rsp.Status ++ " and error " ++
      strconvQuote env.isPrintTable errorRsp.Error ++ " when fetching " ++
      getJSON.url env account path, ?_, ?_, ?_, ?_, ?_⟩
    · simp [getJSON, hget, hstatus, hdec]
    · exact stringsContains_append_left _ _ _ (stringsContains_append_left _ _ _
        (stringsContains_append_left _ _ _ (stringsContains_append_left _ _ _
          (stringsContains_append_right _ _ _ (stringsContains_self _)))))
    · exact stringsContains_append_left _ _ _ (stringsContains_append_left _ _ _
        (stringsContains_append_right _ _ _ (stringsContains_self _)))
    · exact stringsContains_append_right _ _ _ (stringsContains_self _)
    · intro hplain
      exact stringsContains_append_left _ _ _ (stringsContains_append_left _ _ _
        (stringsContains_append_right _ _ _
          (strconvQuote_contains_plain env.isPrintTable errorRsp.Error hplain)))
  · intro errorRsp e hdec
    refine ⟨"got status " ++ rsp.Status ++ " when fetching " ++
      getJSON.url env account path, ?_, ?_, ?_⟩
    · simp [getJSON, hget, hstatus, hdec]
    · exact stringsContains_append_left _ _ _ (stringsContains_append_left _ _ _
        (stringsContains_append_right _ _ _ (stringsContains_self _)))
    · exact stringsContains_append_right _ _ _ (stringsContains_self _)

/-- C6, amended, at the status `404 Not Found` and the body
`{"status":"error","error_message":"not found"}`: the text of the error
contains `404 Not Found` and `not found`. -/
theorem getJSON_error_text_witness :
    ∃ text,
      getJSON
          (Env.refusing "404 Not Found"
            "\x7b\"status\":\"error\",\"error_message\":\"not found\"\x7d"
            { Status := "error", Error := "not found" })
          demoAccount "/droplets/7" [] =
        ("\x7b\"status\":\"error\",\"error_message\":\"not found\"\x7d", some text,
          [] ++ ["https://api.digitalocean.com/droplets/7?client_id=cid&api_key=key"]) ∧
      stringsContains text "404 Not Found" = true ∧
      stringsContains text "not found" = true :=
  match (getJSON_error_text
      (Env.refusing "404 Not Found"
        "\x7b\"status\":\"error\",\"error_message\":\"not found\"\x7d"
        { Status := "error", Error := "not found" })
      demoAccount "/droplets/7" []
      { Status := "404 Not Found",
        Body := "\x7b\"status\":\"error\",\"error_message\":\"not found\"\x7d",
        ReadErr := none }
      rfl (by decide)).1 { Status := "error", Error := "not found" } (by decide) with
  | ⟨text, h1, h2, _, _, h5⟩ => ⟨text, h1, h2, h5 (by decide)⟩

theorem getJSON_success (env : Env) (account : Account) (path : String) (log : List String)
    (rsp : Response) (hget : env.httpGet log (getJSON.url env account path) = .ok rsp)
    (hstatus : stringsHasPrefix rsp.Status "2" = true) :
    getJSON env account path log =
      (rsp.Body, rsp.ReadErr, log ++ [getJSON.url env account path]) := by
  simp [getJSON, hget, hstatus]

theorem loadResource_success {α : Type} (env : Env) (account : Account) (path : String)
    (unmarshal : String → α → α × GoError) (i i1 : α) (log : List String)
    (status body : String)
    (hget : env.httpGet log (getJSON.url env account path) =
      .ok { Status := status, Body := body, ReadErr := none })
    (hstatus : stringsHasPrefix status "2" = true)
    (hdec : unmarshal body i = (i1, none)) :
    loadResource env account path unmarshal i log =
      (i1, none, log ++ [getJSON.url env account path]) := by
  simp [loadResource, getJSON_success env account path log _ hget hstatus, hdec]

theorem backfill_records (self : AccountPtr) (ds : List Droplet) :
    Droplets.backfill self (ds.map some) =
      some (ds.map (fun d => some { d with Account := some self })) := by
  induction ds with
  | nil => rfl
  | cons d rest ih => simp [Droplets.backfill, ih]

/-! ## Typed listings: theorems -/

/-- C4, as stated, fails: `SshKeys` returns a nil error on a `200 OK` response
whose body decodes with the status `ERROR`. -/
theorem SshKeys_status_counterexample :
    (Env.sshKeys "\x7b\"status\":\"ERROR\",\"error_message\":\"Access Denied\"\x7d"
        { Status := "ERROR", Keys := [] }).unmarshalSshKeys
        "\x7b\"status\":\"ERROR\",\"error_message\":\"Access Denied\"\x7d"
        { Status := "", Keys := [] } =
      ({ Status := "ERROR", Keys := [] }, none) ∧
    ("ERROR" : String) ≠ "OK" ∧
    SshKeys
        (Env.sshKeys "\x7b\"status\":\"ERROR\",\"error_message\":\"Access Denied\"\x7d"
          { Status := "ERROR", Keys := [] })
        demoAccount [] =
      ([], none, ["https://api.digitalocean.com/ssh_keys?client_id=cid&api_key=key"]) := by
  decide

/-- C4, amended: on a response whose HTTP status starts with `2` and whose body
is read without error and decodes successfully, `SshKeys` and `Sizes` return
the decoded collection and a nil error, and `Droplets`, when the decoded
collection has no null entry, returns the decoded collection with the
back-reference filled in and a nil error, whatever the status field of the
decoded envelope is: the listings do not compare the status field with
`"OK"`. -/
theorem listings_ignore_status (env : Env) (account : Account) (log : List String)
    (status body : String) (hstatus : stringsHasPrefix status "2" = true) :
    (∀ rsp : SshKeysResponse,
      env.httpGet log (getJSON.url env account "/ssh_keys") =
        .ok { Status := status, Body := body, ReadErr := none } →
      env.unmarshalSshKeys body { Status := "", Keys := [] } = (rsp, none) →
      SshKeys env account log =
        (rsp.Keys, none, log ++ [getJSON.url env account "/ssh_keys"])) ∧
    (∀ rsp : SizeResponse,
      env.httpGet log (getJSON.url env account "/sizes") =
        .ok { Status := status, Body := body, ReadErr := none } →
      env.unmarshalSizes body { Status := "", Sizes := [] } = (rsp, none) →
      Sizes env account log =
        (rsp.Sizes, none, log ++ [getJSON.url env account "/sizes"])) ∧
    (∀ (rsp : DropletsResponse) (ds : List Droplet) (self : AccountPtr),
      env.httpGet log (getJSON.url env account "/droplets") =
        .ok { Status := status, Body := body, ReadErr := none } →
      env.unmarshalDroplets body { Status := "", Droplets := [] } = (rsp, none) →
      rsp.Droplets = ds.map some →
      Droplets env self account log =
        some (ds.map (fun d => some { d with Account := some self }), none,
          log ++ [getJSON.url env account "/droplets"])) := by
  refine ⟨?_, ?_, ?_⟩
  · intro rsp hget hdec
    simp [SshKeys, loadResource_success env account "/ssh_keys" env.unmarshalSshKeys _ rsp log
      status body hget hstatus hdec]
  · intro rsp hget hdec
    simp [Sizes, loadResource_success env account "/sizes" env.unmarshalSizes _ rsp log
      status body hget hstatus hdec]
  · intro rsp ds self hget hdec hrec
    simp [Droplets, loadResource_success env account "/droplets" env.unmarshalDroplets _ rsp log
      status body hget hstatus hdec, hrec, backfill_records]

/-- C4, amended, at a `200 OK` response that decodes with the status `ERROR`
and one key: `SshKeys` returns the key and a nil error. -/
theorem listings_ignore_status_witness :
    stringsHasPrefix "200 OK" "2" = true ∧
    SshKeys
        (Env.sshKeys "\x7b\"status\":\"ERROR\",\"ssh_keys\":[\x7b\"id\":1,\"name\":\"k\"\x7d]\x7d"
          { Status := "ERROR", Keys := [some { Id := 1, Name := "k" }] })
        demoAccount [] =
      ([some { Id := 1, Name := "k" }], none,
        [] ++ ["https://api.digitalocean.com/ssh_keys?client_id=cid&api_key=key"]) :=
  ⟨by decide,
    (listings_ignore_status
      (Env.sshKeys "\x7b\"status\":\"ERROR\",\"ssh_keys\":[\x7b\"id\":1,\"name\":\"k\"\x7d]\x7d"
        { Status := "ERROR", Keys := [some { Id := 1, Name := "k" }] })
      demoAccount [] "200 OK"
      "\x7b\"status\":\"ERROR\",\"ssh_keys\":[\x7b\"id\":1,\"name\":\"k\"\x7d]\x7d"
      (by decide)).1
      { Status := "ERROR", Keys := [some { Id := 1, Name := "k" }] } rfl (by decide)⟩

/-! ## Caches: facts -/

/-- The table the loop of a cache accessor builds from the records `l`. -/
theorem rangeAssign_entries {α : Type} (Id : α → Int) (Name : α → String) :
    ∀ (xs : List (Option α)) (l : List Entry) (t : Table),
      xs.map (Option.map (fun x => (⟨Id x, Name x⟩ : Entry))) = l.map some →
      rangeAssign Id Name t xs = some (l.foldl (fun t e => t.assign e.Id e.Name) t) := by
  intro xs
  induction xs with
  | nil =>
    intro l t h
    cases l with
    | nil => rfl
    | cons e rest => simp at h
  | cons x rest ih =>
    intro l t h
    cases l with
    | nil => simp at h
    | cons e tail =>
      simp only [List.map_cons, List.cons.injEq] at h
      cases x with
      | none => simp at h
      | some a =>
        simp only [Option.map_some', Option.some.injEq] at h
        rw [rangeAssign, ih tail _ h.2, List.foldl_cons, ← h.1]

theorem lookup_filter_ne (k j : Int) (t : Table) :
    (t.filter (fun p => p.1 != k)).lookup j = if j = k then none else t.lookup j := by
  induction t with
  | nil => simp
  | cons p rest ih =>
    obtain ⟨a, v⟩ := p
    by_cases ha : a = k
    · subst ha
      by_cases hj : j = a
      · subst hj
        simpa [List.filter_cons] using ih
      · have hj2 : (j == a) = false := by simpa using hj
        simpa [List.filter_cons, List.lookup_cons, hj, hj2] using ih
    · have ha2 : (a != k) = true := by simpa using ha
      rw [List.filter_cons, if_pos ha2, List.lookup_cons, List.lookup_cons, ih]
      by_cases hj : j = k
      · subst hj
        have : (j == a) = false := by simpa using fun h : j = a => ha h.symm
        simp [this]
      · simp [hj]

theorem lookup_assign (t : Table) (k j : Int) (v : String) :
    (t.assign k v).lookup j = if j = k then some v else t.lookup j := by
  unfold Table.assign
  rw [List.lookup_cons, lookup_filter_ne]
  by_cases hj : j = k
  · subst hj
    simp
  · have : (j == k) = false := by simpa using hj
    simp [this, hj]

theorem lastName_append_singleton (l : List Entry) (e : Entry) (k : Int) :
    lastName (l ++ [e]) k = if e.Id = k then some e.Name else lastName l k := by
  unfold lastName
  rw [List.reverse_append, List.reverse_singleton, List.singleton_append, List.find?_cons]
  by_cases h : e.Id = k
  · simp [h]
  · have : (e.Id == k) = false := by simpa using h
    simp [this, h]

theorem lookup_foldl_assign (k : Int) :
    ∀ (l : List Entry) (t : Table),
      (l.foldl (fun t e => t.assign e.Id e.Name) t).lookup k =
        match lastName l k with
        | some v => some v
        | none => t.lookup k := by
  intro l
  induction l using List.reverseRecOn with
  | nil => intro t; rfl
  | append_singleton l e ih =>
    intro t
    rw [List.foldl_append, List.foldl_cons, List.foldl_nil, lookup_assign,
      lastName_append_singleton, ih]
    by_cases h : e.Id = k
    · subst h
      simp
    · have h2 : ¬ k = e.Id := fun x => h x.symm
      simp [h, h2]

theorem lastName_isSome (l : List Entry) (k : Int) :
    (lastName l k).isSome = true ↔ k ∈ l.map Entry.Id := by
  unfold lastName
  rw [Option.isSome_map', List.find?_isSome]
  simp only [List.mem_reverse, beq_iff_eq, List.mem_map]

theorem lastName_of_nodup (l : List Entry) (h : (l.map Entry.Id).Nodup) (e : Entry)
    (he : e ∈ l) : lastName l e.Id = some e.Name := by
  induction l using List.reverseRecOn with
  | nil => simp at he
  | append_singleton l x ih =>
    rw [lastName_append_singleton]
    rw [List.map_append, List.nodup_append] at h
    by_cases hx : x.Id = e.Id
    · rw [if_pos hx]
      rcases List.mem_append.1 he with hl | hl
      · exfalso
        have h1 : e.Id ∈ l.map Entry.Id := List.mem_map_of_mem _ hl
        have h2 : e.Id ∈ [x].map Entry.Id := by simp [hx]
        exact h.2.2 h1 h2
      · simp at hl
        rw [hl]
    · rw [if_neg hx]
      rcases List.mem_append.1 he with hl | hl
      · exact ih h.1 hl
      · simp at hl
        exact absurd (by rw [hl]) hx

theorem Images_cache_irrelevant (env : Env) (account : Account) (m : GoMap)
    (log : List String) :
    Images env { account with cachedImages := m } log = Images env account log := rfl

theorem Regions_cache_irrelevant (env : Env) (account : Account) (m : GoMap)
    (log : List String) :
    Regions env { account with cachedRegions := m } log = Regions env account log := rfl

theorem Sizes_cache_irrelevant (env : Env) (account : Account) (m : GoMap)
    (log : List String) :
    Sizes env { account with cachedSizes := m } log = Sizes env account log := rfl

theorem Kind.fetch_log (kind : Kind) (env : Env) (account : Account) (log : List String) :
    (kind.fetch env account log).2.2 = log ++ [getJSON.url env account (kind.path env)] := by
  cases kind
  · have h := loadResource_log env account env.imagesPath env.unmarshalImages
      { Status := "", Images := [] } log
    simp only [Kind.fetch, Images, Kind.path]
    split <;> simp_all
  · have h := loadResource_log env account env.regionsPath env.unmarshalRegions
      { Status := "", Regions := [] } log
    simp only [Kind.fetch, Regions, Kind.path]
    split <;> simp_all
  · have h := loadResource_log env account "/sizes" env.unmarshalSizes
      { Status := "", Sizes := [] } log
    simp only [Kind.fetch, Sizes, Kind.path]
    split <;> simp_all

theorem Kind.cached_populated (kind : Kind) (env : Env) (account : Account)
    (log : List String) (t : Table) (h : kind.cache account = some t) :
    kind.cached env account log = some (some t, none, account, log) := by
  cases kind <;> simp only [Kind.cache] at h <;>
    simp [Kind.cached, CachedImages, CachedRegions, CachedSizes, h]

theorem Kind.cached_fetch_fails (kind : Kind) (env : Env) (account : Account)
    (log log1 : List String) (xs : List (Option Entry)) (e : String)
    (h : kind.cache account = none) (hf : kind.fetch env account log = (xs, some e, log1)) :
    kind.cached env account log =
      some (none, some e, kind.withCache account (some []), log1) := by
  cases kind <;> simp only [Kind.cache] at h
  · simp only [Kind.fetch] at hf
    simp only [Kind.cached, CachedImages, h, Images_cache_irrelevant, Kind.withCache]
    rcases hi : Images env account log with ⟨ys, e1, l1⟩
    rw [hi] at hf
    simp only [Prod.mk.injEq] at hf
    obtain ⟨_, rfl, rfl⟩ := hf
    rfl
  · simp only [Kind.fetch] at hf
    simp only [Kind.cached, CachedRegions, h, Regions_cache_irrelevant, Kind.withCache]
    rcases hi : Regions env account log with ⟨ys, e1, l1⟩
    rw [hi] at hf
    simp only [Prod.mk.injEq] at hf
    obtain ⟨_, rfl, rfl⟩ := hf
    rfl
  · simp only [Kind.fetch] at hf
    simp only [Kind.cached, CachedSizes, h, Sizes_cache_irrelevant, Kind.withCache]
    rcases hi : Sizes env account log with ⟨ys, e1, l1⟩
    rw [hi] at hf
    simp only [Prod.mk.injEq] at hf
    obtain ⟨_, rfl, rfl⟩ := hf
    rfl

theorem Kind.cached_fetch_succeeds (kind : Kind) (env : Env) (account : Account)
    (log log1 : List String) (l : List Entry)
    (h : kind.cache account = none)
    (hf : kind.fetch env account log = (l.map some, none, log1)) :
    kind.cached env account log =
      some (some (tableOf l), none, kind.withCache account (some (tableOf l)), log1) := by
  cases kind <;> simp only [Kind.cache] at h
  · simp only [Kind.fetch] at hf
    simp only [Kind.cached, CachedImages, h, Images_cache_irrelevant, Kind.withCache]
    rcases hi : Images env account log with ⟨ys, e1, l1⟩
    rw [hi] at hf
    simp only [Prod.mk.injEq] at hf
    obtain ⟨hys, rfl, rfl⟩ := hf
    simp only [rangeAssign_entries Image.Id Image.Name ys l [] hys, tableOf]
  · simp only [Kind.fetch] at hf
    simp only [Kind.cached, CachedRegions, h, Regions_cache_irrelevant, Kind.withCache]
    rcases hi : Regions env account log with ⟨ys, e1, l1⟩
    rw [hi] at hf
    simp only [Prod.mk.injEq] at hf
    obtain ⟨hys, rfl, rfl⟩ := hf
    simp only [rangeAssign_entries Region.Id Region.Name ys l [] hys, tableOf]
  · simp only [Kind.fetch] at hf
    simp only [Kind.cached, CachedSizes, h, Sizes_cache_irrelevant, Kind.withCache]
    rcases hi : Sizes env account log with ⟨ys, e1, l1⟩
    rw [hi] at hf
    simp only [Prod.mk.injEq] at hf
    obtain ⟨hys, rfl, rfl⟩ := hf
    simp only [rangeAssign_entries Size.Id Size.Name ys l [] hys, tableOf]

theorem Kind.name_eq (kind : Kind) (env : Env) (account : Account) (i : Int)
    (log : List String) :
    kind.name env account i log =
      match kind.cached env account log with
      | none => none
      | some (_, some _, account1, log1) => some ("", account1, log1)
      | some (m, none, account1, log1) => some (m.index i, account1, log1) := by
  cases kind <;> rfl

theorem Kind.cache_withCache (kind : Kind) (account : Account) (m : GoMap) :
    kind.cache (kind.withCache account m) = m := by
  cases kind <;> rfl

theorem Kind.cached_ok_cache (kind : Kind) (env : Env) (account account1 : Account)
    (log log1 : List String) (m : GoMap)
    (h : kind.cached env account log = some (m, none, account1, log1)) :
    ∃ t, m = some t ∧ kind.cache account1 = some t := by
  cases kind
  · simp only [Kind.cached, CachedImages] at h
    split at h
    · split at h
      · simp at h
      · split at h
        · simp at h
        · simp only [Option.some.injEq, Prod.mk.injEq, true_and] at h
          obtain ⟨rfl, rfl, _⟩ := h
          exact ⟨_, rfl, rfl⟩
    · next t ht =>
      simp only [Option.some.injEq, Prod.mk.injEq, true_and] at h
      obtain ⟨rfl, rfl, _⟩ := h
      exact ⟨t, rfl, ht⟩
  · simp only [Kind.cached, CachedRegions] at h
    split at h
    · split at h
      · simp at h
      · split at h
        · simp at h
        · simp only [Option.some.injEq, Prod.mk.injEq, true_and] at h
          obtain ⟨rfl, rfl, _⟩ := h
          exact ⟨_, rfl, rfl⟩
    · next t ht =>
      simp only [Option.some.injEq, Prod.mk.injEq, true_and] at h
      obtain ⟨rfl, rfl, _⟩ := h
      exact ⟨t, rfl, ht⟩
  · simp only [Kind.cached, CachedSizes] at h
    split at h
    · split at h
      · simp at h
      · split at h
        · simp at h
        · simp only [Option.some.injEq, Prod.mk.injEq, true_and] at h
          obtain ⟨rfl, rfl, _⟩ := h
          exact ⟨_, rfl, rfl⟩
    · next t ht =>
      simp only [Option.some.injEq, Prod.mk.injEq, true_and] at h
      obtain ⟨rfl, rfl, _⟩ := h
      exact ⟨t, rfl, ht⟩

theorem lookup_tableOf (l : List Entry) (k : Int) : (tableOf l).lookup k = lastName l k := by
  rw [tableOf, lookup_foldl_assign]
  cases lastName l k <;> rfl

/-! ## Caches: theorems -/

/-- C10: on an account whose cache of the kind is unpopulated, when the
collection fetch succeeds with the records `l`, the cache accessor returns a
table whose keys are exactly the ids occurring in `l` and which maps each id
to the name of the last record of `l` carrying it (so, with unique ids, every
record's id to its own name); the account is left with that table in the cache
of the kind and its two other caches unchanged. -/
theorem cached_first_access (kind : Kind) (env : Env) (account : Account)
    (log log1 : List String) (l : List Entry)
    (hcache : kind.cache account = none)
    (hfetch : kind.fetch env account log = (l.map some, none, log1)) :
    ∃ t : Table,
      kind.cached env account log =
        some (some t, none, kind.withCache account (some t), log1) ∧
      (∀ k, (t.lookup k).isSome = true ↔ k ∈ l.map Entry.Id) ∧
      (∀ k, t.lookup k = lastName l k) ∧
      ((l.map Entry.Id).Nodup → ∀ e ∈ l, t.lookup e.Id = some e.Name) ∧
      (∀ other : Kind, other ≠ kind →
        other.cache (kind.withCache account (some t)) = other.cache account) := by
  refine ⟨tableOf l, Kind.cached_fetch_succeeds kind env account log log1 l hcache hfetch,
    ?_, lookup_tableOf l, ?_, ?_⟩
  · intro k
    rw [lookup_tableOf, lastName_isSome]
  · intro hnodup e he
    rw [lookup_tableOf, lastName_of_nodup l hnodup e he]
  · intro other hne
    cases kind <;> cases other <;> first | rfl | exact absurd rfl hne

/-- C10, at a sizes collection in which the id 66 occurs twice: the cache maps
66 to the name of the last record carrying it. -/
theorem cached_first_access_witness :
    ∃ t : Table,
      Kind.size.cached (Env.sizes demoSizesBody demoSizes) demoAccount [] =
        some (some t, none, Kind.size.withCache demoAccount (some t),
          ["https://api.digitalocean.com/sizes?client_id=cid&api_key=key"]) ∧
      t.lookup 66 = some "0.5GB" ∧ t.lookup 63 = some "1GB" ∧ t.lookup 1 = none :=
  match cached_first_access Kind.size (Env.sizes demoSizesBody demoSizes) demoAccount []
      ["https://api.digitalocean.com/sizes?client_id=cid&api_key=key"]
      [⟨66, "512MB"⟩, ⟨63, "1GB"⟩, ⟨66, "0.5GB"⟩] rfl (by decide) with
  | ⟨t, h1, _, h3, _, _⟩ =>
    ⟨t, h1, (h3 66).trans (by decide), (h3 63).trans (by decide), (h3 1).trans (by decide)⟩

/-- C3: on an account whose cache of the kind is unpopulated and whose
collection fetch succeeds, resolving the name of `i` and then the name of `j`
requests exactly one URL, the one of the collection, and both calls return;
and once the cache accessor has returned without error, an access on any
account holding the same cache returns the same mapping and requests
nothing. -/
theorem cache_fetched_once (kind : Kind) (env : Env) :
    (∀ (account : Account) (log log1 : List String) (l : List Entry) (i j : Int),
      kind.cache account = none →
      kind.fetch env account log = (l.map some, none, log1) →
      ∃ (n1 n2 : String) (account1 : Account),
        kind.name env account i log =
          some (n1, account1, log ++ [getJSON.url env account (kind.path env)]) ∧
        kind.name env account1 j (log ++ [getJSON.url env account (kind.path env)]) =
          some (n2, account1, log ++ [getJSON.url env account (kind.path env)])) ∧
    (∀ (account account1 : Account) (log log1 : List String) (m : GoMap),
      kind.cached env account log = some (m, none, account1, log1) →
      ∀ (account2 : Account) (log2 : List String),
        kind.cache account2 = kind.cache account1 →
        kind.cached env account2 log2 = some (m, none, account2, log2)) := by
  constructor
  · intro account log log1 l i j hcache hfetch
    have hlog := Kind.fetch_log kind env account log
    rw [hfetch] at hlog
    simp only at hlog
    subst hlog
    have h1 := Kind.cached_fetch_succeeds kind env account log _ l hcache hfetch
    have h2 := Kind.cached_populated kind env (kind.withCache account (some (tableOf l)))
      (log ++ [getJSON.url env account (kind.path env)]) (tableOf l)
      (Kind.cache_withCache kind account _)
    refine ⟨GoMap.index (some (tableOf l)) i, GoMap.index (some (tableOf l)) j,
      kind.withCache account (some (tableOf l)), ?_, ?_⟩
    · rw [Kind.name_eq, h1]
    · rw [Kind.name_eq, h2]
  · intro account account1 log log1 m h account2 log2 hsame
    obtain ⟨t, rfl, ht⟩ := Kind.cached_ok_cache kind env account account1 log log1 m h
    exact Kind.cached_populated kind env account2 log2 t (hsame.trans ht)

/-- C3, at the sizes collection of the examples: resolving the names of 66 and
then of 63 leaves one URL in the list of the requests. -/
theorem cache_fetched_once_witness :
    ∃ (n1 n2 : String) (account1 : Account),
      Kind.size.name (Env.sizes demoSizesBody demoSizes) demoAccount 66 [] =
        some (n1, account1,
          [] ++ [getJSON.url (Env.sizes demoSizesBody demoSizes) demoAccount
            (Kind.size.path (Env.sizes demoSizesBody demoSizes))]) ∧
      Kind.size.name (Env.sizes demoSizesBody demoSizes) account1 63
          ([] ++ [getJSON.url (Env.sizes demoSizesBody demoSizes) demoAccount
            (Kind.size.path (Env.sizes demoSizesBody demoSizes))]) =
        some (n2, account1,
          [] ++ [getJSON.url (Env.sizes demoSizesBody demoSizes) demoAccount
            (Kind.size.path (Env.sizes demoSizesBody demoSizes))]) :=
  (cache_fetched_once Kind.size (Env.sizes demoSizesBody demoSizes)).1 demoAccount []
    ["https://api.digitalocean.com/sizes?client_id=cid&api_key=key"]
    [⟨66, "512MB"⟩, ⟨63, "1GB"⟩, ⟨66, "0.5GB"⟩] 66 63 rfl (by decide)

/-- C2: name resolution returns the mapped name when the id is a key of the
populated cache and the empty string when it is not, whether the cache was
populated before the call or is populated by it, and returns the empty string,
with no error surfaced, when the populating fetch fails. -/
theorem name_resolution (kind : Kind) (env : Env) (account : Account) (i : Int)
    (log : List String) :
    (∀ t : Table, kind.cache account = some t →
      ∃ s, kind.name env account i log = some (s, account, log) ∧
        (t.lookup i = none → s = "") ∧ (∀ v, t.lookup i = some v → s = v)) ∧
    (∀ (l : List Entry) (log1 : List String), kind.cache account = none →
      kind.fetch env account log = (l.map some, none, log1) →
      ∃ (s : String) (t : Table),
        kind.name env account i log = some (s, kind.withCache account (some t), log1) ∧
        (t.lookup i = none → s = "") ∧ (∀ v, t.lookup i = some v → s = v) ∧
        (i ∉ l.map Entry.Id → s = "") ∧ (∀ v, lastName l i = some v → s = v)) ∧
    (∀ (xs : List (Option Entry)) (e : String) (log1 : List String),
      kind.cache account = none →
      kind.fetch env account log = (xs, some e, log1) →
      ∃ account1, kind.name env account i log = some ("", account1, log1)) := by
  refine ⟨?_, ?_, ?_⟩
  · intro t ht
    refine ⟨GoMap.index (some t) i, ?_, ?_, ?_⟩
    · rw [Kind.name_eq, Kind.cached_populated kind env account log t ht]
    · intro h
      simp [GoMap.index, h]
    · intro v h
      simp [GoMap.index, h]
  · intro l log1 hcache hfetch
    refine ⟨GoMap.index (some (tableOf l)) i, tableOf l, ?_, ?_, ?_, ?_, ?_⟩
    · rw [Kind.name_eq, Kind.cached_fetch_succeeds kind env account log log1 l hcache hfetch]
    · intro h
      simp [GoMap.index, h]
    · intro v h
      simp [GoMap.index, h]
    · intro h
      have h1 : lastName l i = none := by
        rw [← Option.not_isSome_iff_eq_none, lastName_isSome]
        exact h
      simp [GoMap.index, lookup_tableOf, h1]
    · intro v h
      simp [GoMap.index, lookup_tableOf, h]
  · intro xs e log1 hcache hfetch
    refine ⟨kind.withCache account (some []), ?_⟩
    rw [Kind.name_eq, Kind.cached_fetch_fails kind env account log log1 xs e hcache hfetch]

/-- C2, at the sizes collection of the examples and at a failing transport:
the name of 63 is `1GB`, the name of the absent id 1 is empty, and the name
resolved while the fetch fails is empty. -/
theorem name_resolution_witness :
    (∃ (s : String) (t : Table),
      Kind.size.name (Env.sizes demoSizesBody demoSizes) demoAccount 63 [] =
        some (s, Kind.size.withCache demoAccount (some t),
          ["https://api.digitalocean.com/sizes?client_id=cid&api_key=key"]) ∧
      s = "1GB") ∧
    (∃ (s : String) (t : Table),
      Kind.size.name (Env.sizes demoSizesBody demoSizes) demoAccount 1 [] =
        some (s, Kind.size.withCache demoAccount (some t),
          ["https://api.digitalocean.com/sizes?client_id=cid&api_key=key"]) ∧
      s = "") ∧
    (∃ account1, Kind.size.name Env.offline demoAccount 63 [] =
      some ("", account1, ["https://api.digitalocean.com/sizes?client_id=cid&api_key=key"])) :=
  ⟨match (name_resolution Kind.size (Env.sizes demoSizesBody demoSizes) demoAccount 63 []).2.1
      [⟨66, "512MB"⟩, ⟨63, "1GB"⟩, ⟨66, "0.5GB"⟩]
      ["https://api.digitalocean.com/sizes?client_id=cid&api_key=key"] rfl (by decide) with
    | ⟨s, t, h1, _, _, _, h5⟩ => ⟨s, t, h1, h5 "1GB" (by decide)⟩,
   match (name_resolution Kind.size (Env.sizes demoSizesBody demoSizes) demoAccount 1 []).2.1
      [⟨66, "512MB"⟩, ⟨63, "1GB"⟩, ⟨66, "0.5GB"⟩]
      ["https://api.digitalocean.com/sizes?client_id=cid&api_key=key"] rfl (by decide) with
    | ⟨s, t, h1, _, _, h4, _⟩ => ⟨s, t, h1, h4 (by decide)⟩,
   (name_resolution Kind.size Env.offline demoAccount 63 []).2.2 []
      "dial tcp: connection refused"
      ["https://api.digitalocean.com/sizes?client_id=cid&api_key=key"] rfl (by decide)⟩

/-- C1, on the code: on an account whose cache of the kind is unpopulated,
when the populating fetch fails the accessor returns the error and leaves the
cache an empty map that is not nil; a later name resolution on that account
returns the empty string and requests nothing, and a later access returns the
empty map with a nil error. -/
theorem failed_fetch_leaves_empty_cache (kind : Kind) (env : Env) (account : Account)
    (log log1 : List String) (xs : List (Option Entry)) (e : String)
    (hcache : kind.cache account = none)
    (hfetch : kind.fetch env account log = (xs, some e, log1)) :
    ∃ account1 : Account,
      kind.cached env account log = some (none, some e, account1, log1) ∧
      kind.cache account1 = some [] ∧
      kind.cache account1 ≠ none ∧
      (∀ (i : Int) (log2 : List String),
        kind.name env account1 i log2 = some ("", account1, log2)) ∧
      (∀ log2 : List String,
        kind.cached env account1 log2 = some (some [], none, account1, log2)) := by
  have hc : kind.cache (kind.withCache account (some [])) = some [] :=
    Kind.cache_withCache kind account _
  refine ⟨kind.withCache account (some []),
    Kind.cached_fetch_fails kind env account log log1 xs e hcache hfetch, hc, ?_, ?_, ?_⟩
  · rw [hc]
    exact Option.some_ne_none _
  · intro i log2
    rw [Kind.name_eq, Kind.cached_populated kind env _ log2 [] hc]
    rfl
  · intro log2
    exact Kind.cached_populated kind env _ log2 [] hc

/-- C1, on the code, at a failing transport: after `CachedSizes` has failed,
the cache of the sizes is the empty map and `SizeName` requests nothing. -/
theorem failed_fetch_leaves_empty_cache_witness :
    ∃ account1 : Account,
      Kind.size.cached Env.offline demoAccount [] =
        some (none, some "dial tcp: connection refused", account1,
          ["https://api.digitalocean.com/sizes?client_id=cid&api_key=key"]) ∧
      Kind.size.cache account1 = some [] ∧
      Kind.size.cache account1 ≠ none ∧
      (∀ (i : Int) (log2 : List String),
        Kind.size.name Env.offline account1 i log2 = some ("", account1, log2)) ∧
      (∀ log2 : List String,
        Kind.size.cached Env.offline account1 log2 = some (some [], none, account1, log2)) :=
  failed_fetch_leaves_empty_cache Kind.size Env.offline demoAccount []
    ["https://api.digitalocean.com/sizes?client_id=cid&api_key=key"] []
    "dial tcp: connection refused" rfl (by decide)

/-! ## Mutating operations: theorems -/

/-- C7: `DestroyDroplet` returns the load error and a nil response when loading
the destroy response fails; the decoded response and no error when its status
is `"OK"`; and otherwise the decoded response together with an error whose
text contains the `error_message` of the response. -/
theorem DestroyDroplet_outcomes (env : Env) (account : Account) (id : Int) (log : List String) :
    (∀ i e log1,
      loadResource env account ("/droplets/" ++ fmtInt id ++ "/destroy") env.unmarshalEvent
          { Status := "", ErrorMessage := "" } log = (i, some e, log1) →
        DestroyDroplet env account id log = (none, some e, log1)) ∧
    (∀ rsp log1,
      loadResource env account ("/droplets/" ++ fmtInt id ++ "/destroy") env.unmarshalEvent
          { Status := "", ErrorMessage := "" } log = (rsp, none, log1) →
        rsp.Status = "OK" →
        DestroyDroplet env account id log = (some rsp, none, log1)) ∧
    (∀ rsp log1,
      loadResource env account ("/droplets/" ++ fmtInt id ++ "/destroy") env.unmarshalEvent
          { Status := "", ErrorMessage := "" } log = (rsp, none, log1) →
        rsp.Status ≠ "OK" →
        ∃ text, DestroyDroplet env account id log = (some rsp, some text, log1) ∧
          stringsContains text rsp.ErrorMessage = true) := by
  refine ⟨?_, ?_, ?_⟩
  · intro i e log1 h
    simp [DestroyDroplet, h]
  · intro rsp log1 h hs
    simp [DestroyDroplet, h, hs]
  · intro rsp log1 h hs
    refine ⟨"error destroying droplet: " ++ rsp.ErrorMessage, ?_, ?_⟩
    · simp [DestroyDroplet, h, hs]
    · exact stringsContains_append_right _ _ _ (stringsContains_self _)

/-- C7, at the response `{"status":"ERR","error_message":"busy"}`: the text of
the error of `DestroyDroplet` contains `busy`. -/
theorem DestroyDroplet_outcomes_witness :
    ∃ text,
      DestroyDroplet
          (Env.event "\x7b\"status\":\"ERR\",\"error_message\":\"busy\"\x7d"
            { Status := "ERR", ErrorMessage := "busy" })
          demoAccount 7 [] =
        (some { Status := "ERR", ErrorMessage := "busy" }, some text,
          ["https://api.digitalocean.com/droplets/7/destroy?client_id=cid&api_key=key"]) ∧
      stringsContains text "busy" = true :=
  (DestroyDroplet_outcomes
      (Env.event "\x7b\"status\":\"ERR\",\"error_message\":\"busy\"\x7d"
        { Status := "ERR", ErrorMessage := "busy" })
      demoAccount 7 []).2.2
    { Status := "ERR", ErrorMessage := "busy" }
    ["https://api.digitalocean.com/droplets/7/destroy?client_id=cid&api_key=key"]
    (by decide) (by decide)

/-- C9: `RebuildDroplet` returns the load error and a nil response when loading
the rebuild response fails; the decoded response and no error when its status
is `"OK"`; and otherwise the decoded response together with the error
`error rebuilding droplet`, a fixed text in which the `error_message` of the
response has no part. -/
theorem RebuildDroplet_outcomes (env : Env) (a : Account) (id imageId : Int)
    (log : List String) :
    (∀ i e log1,
      loadResource env a ("/droplets/" ++ fmtInt id ++ "/rebuild?image_id=" ++ fmtInt imageId)
          env.unmarshalEvent { Status := "", ErrorMessage := "" } log = (i, some e, log1) →
        RebuildDroplet env a id imageId log = (none, some e, log1)) ∧
    (∀ rsp log1,
      loadResource env a ("/droplets/" ++ fmtInt id ++ "/rebuild?image_id=" ++ fmtInt imageId)
          env.unmarshalEvent { Status := "", ErrorMessage := "" } log = (rsp, none, log1) →
        rsp.Status = "OK" →
        RebuildDroplet env a id imageId log = (some rsp, none, log1)) ∧
    (∀ rsp log1,
      loadResource env a ("/droplets/" ++ fmtInt id ++ "/rebuild?image_id=" ++ fmtInt imageId)
          env.unmarshalEvent { Status := "", ErrorMessage := "" } log = (rsp, none, log1) →
        rsp.Status ≠ "OK" →
        RebuildDroplet env a id imageId log =
          (some rsp, some "error rebuilding droplet", log1)) := by
  refine ⟨?_, ?_, ?_⟩
  · intro i e log1 h
    simp [RebuildDroplet, h]
  · intro rsp log1 h hs
    simp [RebuildDroplet, h, hs]
  · intro rsp log1 h hs
    simp [RebuildDroplet, h, hs]

/-- C9, at the response `{"status":"ERR","error_message":"busy"}`: the error of
`RebuildDroplet` is `error rebuilding droplet`, and the response is returned
with it. -/
theorem RebuildDroplet_outcomes_witness :
    RebuildDroplet
        (Env.event "\x7b\"status\":\"ERR\",\"error_message\":\"busy\"\x7d"
          { Status := "ERR", ErrorMessage := "busy" })
        demoAccount 7 3 [] =
      (some { Status := "ERR", ErrorMessage := "busy" }, some "error rebuilding droplet",
        ["https://api.digitalocean.com/droplets/7/rebuild?image_id=3&client_id=cid&api_key=key"]) :=
  (RebuildDroplet_outcomes
      (Env.event "\x7b\"status\":\"ERR\",\"error_message\":\"busy\"\x7d"
        { Status := "ERR", ErrorMessage := "busy" })
      demoAccount 7 3 []).2.2
    { Status := "ERR", ErrorMessage := "busy" }
    ["https://api.digitalocean.com/droplets/7/rebuild?image_id=3&client_id=cid&api_key=key"]
    (by decide) (by decide)

/-! ## Droplets: theorems -/

set_option maxRecDepth 20000 in
/-- C8, as stated, fails: a droplets collection that is fetched and decoded
successfully may hold a null entry, a nil pointer after the decode; on it the
back-fill loop dereferences nil and `Droplets` returns no list. -/
theorem Droplets_null_entry_counterexample :
    loadResource (Env.droplets nullDropletsBody nullDroplets) demoAccount "/droplets"
        (Env.droplets nullDropletsBody nullDroplets).unmarshalDroplets
        { Status := "", Droplets := [] } [] =
      (nullDroplets, none,
        ["https://api.digitalocean.com/droplets?client_id=cid&api_key=key"]) ∧
    nullDroplets.Droplets.length = 2 ∧
    Droplets (Env.droplets nullDropletsBody nullDroplets) 5 demoAccount [] = none := by
  decide

/-- C8, amended: when the droplets collection is fetched and decoded and has
no null entry, so that it is the list of the records `ds`, `Droplets` returns
a list of the same length whose record at every position is the record of
`ds` at that position with the `Account` back-reference set to the account
that performed the fetch and every other field as decoded. -/
theorem Droplets_backfills_account (env : Env) (self : AccountPtr) (account : Account)
    (log log1 : List String) (rsp : DropletsResponse) (ds : List Droplet)
    (hload : loadResource env account "/droplets" env.unmarshalDroplets
      { Status := "", Droplets := [] } log = (rsp, none, log1))
    (hrec : rsp.Droplets = ds.map some) :
    ∃ out : List Droplet,
      Droplets env self account log = some (out.map some, none, log1) ∧
      out.length = ds.length ∧
      ∀ n (h1 : n < out.length) (h2 : n < ds.length),
        (out.get ⟨n, h1⟩).Account = some self ∧
        (out.get ⟨n, h1⟩).Id = (ds.get ⟨n, h2⟩).Id ∧
        (out.get ⟨n, h1⟩).Name = (ds.get ⟨n, h2⟩).Name ∧
        (out.get ⟨n, h1⟩).RegionId = (ds.get ⟨n, h2⟩).RegionId ∧
        (out.get ⟨n, h1⟩).SizeId = (ds.get ⟨n, h2⟩).SizeId ∧
        (out.get ⟨n, h1⟩).ImageId = (ds.get ⟨n, h2⟩).ImageId := by
  refine ⟨ds.map (fun d => { d with Account := some self }), ?_, by simp, ?_⟩
  · simp [Droplets, hload, hrec, backfill_records]
  · intro n h1 h2
    simp

set_option maxRecDepth 20000 in
/-- C8, amended, at a collection of two droplets fetched by the account at address 5:
both droplets come back, in order, with the back-reference 5. -/
theorem Droplets_backfills_account_witness :
    ∃ out : List Droplet,
      Droplets (Env.droplets demoDropletsBody { Status := "OK", Droplets := demoDroplets.map some })
          5 demoAccount [] =
        some (out.map some, none,
          ["https://api.digitalocean.com/droplets?client_id=cid&api_key=key"]) ∧
      out.length = demoDroplets.length ∧
      ∀ n (h1 : n < out.length) (h2 : n < demoDroplets.length),
        (out.get ⟨n, h1⟩).Account = some 5 ∧
        (out.get ⟨n, h1⟩).Id = (demoDroplets.get ⟨n, h2⟩).Id ∧
        (out.get ⟨n, h1⟩).Name = (demoDroplets.get ⟨n, h2⟩).Name ∧
        (out.get ⟨n, h1⟩).RegionId = (demoDroplets.get ⟨n, h2⟩).RegionId ∧
        (out.get ⟨n, h1⟩).SizeId = (demoDroplets.get ⟨n, h2⟩).SizeId ∧
        (out.get ⟨n, h1⟩).ImageId = (demoDroplets.get ⟨n, h2⟩).ImageId :=
  Droplets_backfills_account
    (Env.droplets demoDropletsBody { Status := "OK", Droplets := demoDroplets.map some })
    5 demoAccount [] ["https://api.digitalocean.com/droplets?client_id=cid&api_key=key"]
    { Status := "OK", Droplets := demoDroplets.map some } demoDroplets
    (by decide) rfl

end Digo
